import Mathlib

/-!
Formal model of the placement-search core of the ReaLHF repository
(`profiler/enumerate.py`, `profiler/rpc.py`, `reallm/profiler/enumerate.py`).

Conventions:
* Python `int` values (memory sizes, time costs) are modelled as `Int`.
* Device meshes are modelled as finite sets of device ids (`List Nat`);
  the overlap predicate `is_all_overlap` lives in `profiler/device_mesh.py`,
  which is not part of the provided sources, so it is modelled from the spec.
* Stateful Python classes become explicit state records with pure update
  functions.
-/

namespace ReaLHF

/-- Modelled from the spec: a `DeviceMesh` is "an identifier for a set of
devices"; overlap between meshes is "shares at least one physical device".
We represent a mesh by the list of its device ids. -/
abbrev DeviceMesh := List Nat

/-- Modelled from the spec: two meshes overlap iff their device sets share
at least one device. -/
def meshOverlap (a b : DeviceMesh) : Bool :=
  a.any (fun d => b.contains d)

/-- Modelled from the spec: `is_all_overlap(meshes, candidate)` from the
missing `profiler/device_mesh.py`, per the spec's §3 merge rule ("any overlap
with any member"): true iff the candidate mesh overlaps some mesh of the
list. -/
def is_all_overlap (meshes : List DeviceMesh) (candidate : DeviceMesh) : Bool :=
  meshes.any (fun m => meshOverlap m candidate)

/-- `RPC` from `profiler/rpc.py`: lightweight projection of a `ModelRPC`. -/
structure RPC where
  model_name : String
  interface_type : String
  rpc_name : String
deriving DecidableEq

/-- `ParallelStrategy` (3D parallelism degrees). -/
structure ParallelStrategy where
  num_dp : Nat
  num_pp : Nat
  num_mp : Nat
deriving DecidableEq

/-- `RPCExecution` from `profiler/rpc.py`: one feasible placement candidate
with its costs (`time_cost`, total memory `mem`, `static_mem`). -/
structure RPCExecution where
  rpc : RPC
  device_mesh : DeviceMesh
  parallel_strategy : ParallelStrategy
  time_cost : Int
  mem : Int
  static_mem : Int
deriving DecidableEq

instance : Inhabited RPCExecution :=
  ⟨⟨⟨"", "", ""⟩, [], ⟨1, 1, 1⟩, 0, 0, 0⟩⟩

/-- State of the `GroupedRPCExecutions` class (`profiler/enumerate.py`,
lines 13-47): five parallel lists, one entry per group. -/
structure GroupedRPCExecutions where
  rpc_exe_groups : List (List RPCExecution)
  rpc_exe_group_models : List (List String)
  mem_static : List (List Int)
  mem_active : List (List Int)
  mem_costs : List Int
deriving DecidableEq

/-- `GroupedRPCExecutions.__init__`: all lists empty. -/
def GroupedRPCExecutions.init : GroupedRPCExecutions := ⟨[], [], [], [], []⟩

/-- Python's `max` over a list; only applied to nonempty lists in the code
(Python raises on `max([])`, we return 0 there — unreachable from `init`). -/
def pyMax : List Int → Int
  | [] => 0
  | x :: xs => xs.foldl max x

/-- The body of the `for i, group in enumerate(self.rpc_exe_groups)` loop of
`GroupedRPCExecutions.add` (`profiler/enumerate.py` lines 24-37), walking the
five parallel lists together.  Note the Python loop has no `break`: every
group whose member meshes pass `is_all_overlap` receives the execution.
Returns the updated lists and the final `overlap_flag`. -/
def addLoop (ov : List DeviceMesh → DeviceMesh → Bool) (e : RPCExecution) :
    List (List RPCExecution) → List (List String) → List (List Int) →
    List (List Int) → List Int → GroupedRPCExecutions × Bool
  | g :: gs, m :: ms, s :: ss, a :: al, c :: cl =>
    let r := addLoop ov e gs ms ss al cl
    if ov (g.map (fun x => x.device_mesh)) e.device_mesh then
      let g' := g ++ [e]
      let msa :=
        if m.contains e.rpc.model_name then
          let j := m.findIdx (fun x => x == e.rpc.model_name)
          (m, s.set j (max (s.getD j 0) e.mem),
              a.set j (max (a.getD j 0) (e.mem - e.static_mem)))
        else
          (m ++ [e.rpc.model_name], s ++ [e.mem], a ++ [e.mem - e.static_mem])
      let c' := msa.2.1.sum + pyMax msa.2.2
      (⟨g' :: r.1.rpc_exe_groups, msa.1 :: r.1.rpc_exe_group_models,
        msa.2.1 :: r.1.mem_static, msa.2.2 :: r.1.mem_active,
        c' :: r.1.mem_costs⟩, true)
    else
      (⟨g :: r.1.rpc_exe_groups, m :: r.1.rpc_exe_group_models,
        s :: r.1.mem_static, a :: r.1.mem_active, c :: r.1.mem_costs⟩, r.2)
  | gs, ms, ss, al, cl => (⟨gs, ms, ss, al, cl⟩, false)

/-- `GroupedRPCExecutions.add` (`profiler/enumerate.py` lines 22-44).
The overlap test `ov` is a parameter standing for `is_all_overlap` from the
missing `profiler/device_mesh.py`. -/
def GroupedRPCExecutions.add (ov : List DeviceMesh → DeviceMesh → Bool)
    (st : GroupedRPCExecutions) (e : RPCExecution) : GroupedRPCExecutions :=
  let r := addLoop ov e st.rpc_exe_groups st.rpc_exe_group_models
      st.mem_static st.mem_active st.mem_costs
  if r.2 then r.1
  else
    ⟨r.1.rpc_exe_groups ++ [[e]],
     r.1.rpc_exe_group_models ++ [[e.rpc.model_name]],
     r.1.mem_static ++ [[e.mem]],
     r.1.mem_active ++ [[e.mem - e.static_mem]],
     r.1.mem_costs ++ [e.mem]⟩

/-- `GroupedRPCExecutions.total_mem_cost` (`profiler/enumerate.py` line 46). -/
def GroupedRPCExecutions.total_mem_cost (st : GroupedRPCExecutions) : Int :=
  st.mem_costs.sum

/-- Fold a sequence of `add` calls starting from the fresh state. -/
def runAdds (ov : List DeviceMesh → DeviceMesh → Bool)
    (es : List RPCExecution) : GroupedRPCExecutions :=
  es.foldl (GroupedRPCExecutions.add ov) GroupedRPCExecutions.init

end ReaLHF
namespace ReaLHF

/-- The scan loop preserves the length of each of the five parallel lists. -/
lemma addLoop_length (ov : List DeviceMesh → DeviceMesh → Bool) (e : RPCExecution) :
    ∀ gs ms ss al cl,
      ((addLoop ov e gs ms ss al cl).1.rpc_exe_groups.length = gs.length) ∧
      ((addLoop ov e gs ms ss al cl).1.rpc_exe_group_models.length = ms.length) ∧
      ((addLoop ov e gs ms ss al cl).1.mem_static.length = ss.length) ∧
      ((addLoop ov e gs ms ss al cl).1.mem_active.length = al.length) ∧
      ((addLoop ov e gs ms ss al cl).1.mem_costs.length = cl.length) := by
  intro gs ms ss al cl
  induction gs, ms, ss, al, cl using addLoop.induct ov e with
  | case1 g gs m ms s ss a al c cl htest ih =>
      simp only [addLoop, htest, if_true]
      simp [ih.1, ih.2.1, ih.2.2.1, ih.2.2.2.1, ih.2.2.2.2]
  | case2 g gs m ms s ss a al c cl htest ih =>
      simp only [addLoop]
      rw [if_neg htest]
      simp [ih.1, ih.2.1, ih.2.2.1, ih.2.2.2.1, ih.2.2.2.2]
  | case3 gs ms ss al cl h =>
      rw [addLoop.eq_def]
      split
      next g gs2 m ms2 s ss2 a al2 c cl2 =>
        exact (h g gs2 m ms2 s ss2 a al2 c cl2 rfl rfl rfl rfl rfl).elim
      next => simp

/-- Each group list only ever grows at the tail during the scan loop. -/
lemma addLoop_groups_ext (ov : List DeviceMesh → DeviceMesh → Bool) (e : RPCExecution) :
    ∀ gs ms ss al cl i, ∃ t,
      (addLoop ov e gs ms ss al cl).1.rpc_exe_groups.getD i [] = gs.getD i [] ++ t := by
  intro gs ms ss al cl
  induction gs, ms, ss, al, cl using addLoop.induct ov e with
  | case1 g gs m ms s ss a al c cl htest ih =>
      intro i
      cases i with
      | zero => exact ⟨[e], by simp only [addLoop, htest, if_true]; simp⟩
      | succ i =>
          obtain ⟨t, ht⟩ := ih i
          exact ⟨t, by simp only [addLoop, htest, if_true]; simpa using ht⟩
  | case2 g gs m ms s ss a al c cl htest ih =>
      intro i
      cases i with
      | zero =>
          refine ⟨[], ?_⟩
          simp only [addLoop]
          rw [if_neg htest]
          simp
      | succ i =>
          obtain ⟨t, ht⟩ := ih i
          refine ⟨t, ?_⟩
          simp only [addLoop]
          rw [if_neg htest]
          simpa using ht
  | case3 gs ms ss al cl h =>
      intro i
      refine ⟨[], ?_⟩
      rw [addLoop.eq_def]
      split
      next g gs2 m ms2 s ss2 a al2 c cl2 =>
        exact (h g gs2 m ms2 s ss2 a al2 c cl2 rfl rfl rfl rfl rfl).elim
      next => simp

/-- Under the parallel-lengths invariant, the scan loop updates exactly the
overlapping groups and reports whether any group overlapped. -/
lemma addLoop_char (ov : List DeviceMesh → DeviceMesh → Bool) (e : RPCExecution) :
    ∀ gs ms ss al cl, gs.length = ms.length → ms.length = ss.length →
      ss.length = al.length → al.length = cl.length →
      (addLoop ov e gs ms ss al cl).1.rpc_exe_groups =
        gs.map (fun g =>
          if ov (g.map (fun x => x.device_mesh)) e.device_mesh then g ++ [e] else g) ∧
      (addLoop ov e gs ms ss al cl).2 =
        gs.any (fun g => ov (g.map (fun x => x.device_mesh)) e.device_mesh) := by
  intro gs ms ss al cl
  induction gs, ms, ss, al, cl using addLoop.induct ov e with
  | case1 g gs m ms s ss a al c cl htest ih =>
      intro h1 h2 h3 h4
      simp only [List.length_cons, Nat.add_right_cancel_iff] at h1 h2 h3 h4
      obtain ⟨ihg, ihf⟩ := ih h1 h2 h3 h4
      constructor
      · simp only [addLoop, htest, if_true, List.map_cons]
        simp [ihg]
      · simp only [addLoop, htest, if_true]
        simp [List.any_cons, htest]
  | case2 g gs m ms s ss a al c cl htest ih =>
      intro h1 h2 h3 h4
      simp only [List.length_cons, Nat.add_right_cancel_iff] at h1 h2 h3 h4
      obtain ⟨ihg, ihf⟩ := ih h1 h2 h3 h4
      constructor
      · simp only [addLoop, List.map_cons]
        rw [if_neg htest]
        simp only [Bool.not_eq_true] at htest
        simp [ihg, htest]
      · simp only [addLoop]
        rw [if_neg htest]
        simp only [Bool.not_eq_true] at htest
        simp [List.any_cons, htest, ihf]
  | case3 gs ms ss al cl h =>
      intro h1 h2 h3 h4
      cases gs with
      | nil =>
          rw [addLoop.eq_def]
          constructor <;> simp
      | cons g gs2 =>
          cases ms with
          | nil => simp at h1
          | cons m ms2 =>
              cases ss with
              | nil => simp at h2
              | cons s ss2 =>
                  cases al with
                  | nil => simp at h3
                  | cons a al2 =>
                      cases cl with
                      | nil => simp at h4
                      | cons c cl2 =>
                          exact (h g gs2 m ms2 s ss2 a al2 c cl2 rfl rfl rfl rfl rfl).elim

/-- Per-group alignment: within each group the model-name list has no
duplicates and is aligned with the per-model static and active lists. -/
def colInv (ms : List (List String)) (ss al : List (List Int)) : Prop :=
  ∀ i, (ms.getD i []).Nodup ∧
       (ms.getD i []).length = (ss.getD i []).length ∧
       (ss.getD i []).length = (al.getD i []).length

lemma addLoop_colInv (ov : List DeviceMesh → DeviceMesh → Bool) (e : RPCExecution) :
    ∀ gs ms ss al cl, colInv ms ss al →
      colInv (addLoop ov e gs ms ss al cl).1.rpc_exe_group_models
             (addLoop ov e gs ms ss al cl).1.mem_static
             (addLoop ov e gs ms ss al cl).1.mem_active := by
  intro gs ms ss al cl
  induction gs, ms, ss, al, cl using addLoop.induct ov e with
  | case1 g gs m ms s ss a al c cl htest ih =>
      intro hin
      have hin0 := hin 0
      simp only [List.getD_cons_zero] at hin0
      have hintail : colInv ms ss al := by
        intro i
        have := hin (i + 1)
        simpa using this
      have ihp := ih hintail
      intro i
      cases i with
      | zero =>
          simp only [addLoop, htest, if_true]
          by_cases hc : m.contains e.rpc.model_name
          · simp only [hc, if_true, List.getD_cons_zero]
            exact ⟨hin0.1, by simp [hin0.2.1], by simp [hin0.2.2]⟩
          · simp only [hc, if_false, Bool.false_eq_true, List.getD_cons_zero]
            have hnm : e.rpc.model_name ∉ m := by
              simpa [List.elem_iff] using hc
            refine ⟨by simp [List.nodup_append, hin0.1, hnm], ?_, ?_⟩
            · simp [hin0.2.1]
            · simp [hin0.2.2]
      | succ i =>
          simp only [addLoop, htest, if_true, List.getD_cons_succ]
          exact ihp i
  | case2 g gs m ms s ss a al c cl htest ih =>
      intro hin
      have hin0 := hin 0
      simp only [List.getD_cons_zero] at hin0
      have hintail : colInv ms ss al := by
        intro i
        have := hin (i + 1)
        simpa using this
      have ihp := ih hintail
      intro i
      cases i with
      | zero =>
          simp only [addLoop]
          rw [if_neg htest]
          simp only [List.getD_cons_zero]
          exact hin0
      | succ i =>
          simp only [addLoop]
          rw [if_neg htest]
          simp only [List.getD_cons_succ]
          exact ihp i
  | case3 gs ms ss al cl h =>
      intro hin
      rw [addLoop.eq_def]
      split
      next g gs2 m ms2 s ss2 a al2 c cl2 =>
        exact (h g gs2 m ms2 s ss2 a al2 c cl2 rfl rfl rfl rfl rfl).elim
      next => exact hin

/-- Structural invariant of a `GroupedRPCExecutions` state: the five parallel
lists have equal length, and within each group the model list is
duplicate-free and aligned with the static/active lists. -/
def GroupedRPCExecutions.Inv (st : GroupedRPCExecutions) : Prop :=
  (st.rpc_exe_groups.length = st.rpc_exe_group_models.length ∧
   st.rpc_exe_group_models.length = st.mem_static.length ∧
   st.mem_static.length = st.mem_active.length ∧
   st.mem_active.length = st.mem_costs.length) ∧
  colInv st.rpc_exe_group_models st.mem_static st.mem_active

lemma init_Inv : GroupedRPCExecutions.init.Inv := by
  refine ⟨by simp [GroupedRPCExecutions.init], ?_⟩
  intro i
  simp [GroupedRPCExecutions.init]

lemma add_Inv (ov : List DeviceMesh → DeviceMesh → Bool)
    (st : GroupedRPCExecutions) (e : RPCExecution) (h : st.Inv) :
    (st.add ov e).Inv := by
  obtain ⟨⟨l1, l2, l3, l4⟩, hcol⟩ := h
  have L := addLoop_length ov e st.rpc_exe_groups st.rpc_exe_group_models
      st.mem_static st.mem_active st.mem_costs
  have C := addLoop_colInv ov e st.rpc_exe_groups st.rpc_exe_group_models
      st.mem_static st.mem_active st.mem_costs hcol
  obtain ⟨L1, L2, L3, L4, L5⟩ := L
  by_cases hflag : (addLoop ov e st.rpc_exe_groups st.rpc_exe_group_models
      st.mem_static st.mem_active st.mem_costs).2 = true
  · simp only [GroupedRPCExecutions.add]
    rw [if_pos hflag]
    exact ⟨⟨by omega, by omega, by omega, by omega⟩, C⟩
  · simp only [GroupedRPCExecutions.add]
    rw [if_neg hflag]
    constructor
    · refine ⟨by simp; omega, by simp; omega, by simp; omega, by simp; omega⟩
    · -- the appended singleton groups stay aligned
      intro i
      set r := addLoop ov e st.rpc_exe_groups st.rpc_exe_group_models
          st.mem_static st.mem_active st.mem_costs with hr
      have hms : r.1.rpc_exe_group_models.length = st.rpc_exe_group_models.length := L2
      have hss : r.1.mem_static.length = st.rpc_exe_group_models.length := by
        rw [L3]; omega
      have hal : r.1.mem_active.length = st.rpc_exe_group_models.length := by
        rw [L4]; omega
      rcases Nat.lt_trichotomy i st.rpc_exe_group_models.length with hlt | heq | hgt
      · have e1 : (r.1.rpc_exe_group_models ++ [[e.rpc.model_name]]).getD i [] =
            r.1.rpc_exe_group_models.getD i [] :=
          List.getD_append _ _ _ _ (by omega)
        have e2 : (r.1.mem_static ++ [[e.mem]]).getD i [] =
            r.1.mem_static.getD i [] :=
          List.getD_append _ _ _ _ (by omega)
        have e3 : (r.1.mem_active ++ [[e.mem - e.static_mem]]).getD i [] =
            r.1.mem_active.getD i [] :=
          List.getD_append _ _ _ _ (by omega)
        rw [e1, e2, e3]
        exact C i
      · have e1 : (r.1.rpc_exe_group_models ++ [[e.rpc.model_name]]).getD i [] =
            [e.rpc.model_name] := by
          rw [List.getD_append_right _ _ _ _ (by omega)]
          simp [hms, heq]
        have e2 : (r.1.mem_static ++ [[e.mem]]).getD i [] = [e.mem] := by
          rw [List.getD_append_right _ _ _ _ (by omega)]
          simp [hss, heq]
        have e3 : (r.1.mem_active ++ [[e.mem - e.static_mem]]).getD i [] =
            [e.mem - e.static_mem] := by
          rw [List.getD_append_right _ _ _ _ (by omega)]
          simp [hal, heq]
        rw [e1, e2, e3]
        simp
      · have e1 : (r.1.rpc_exe_group_models ++ [[e.rpc.model_name]]).getD i [] = [] := by
          apply List.getD_eq_default
          simp
          omega
        have e2 : (r.1.mem_static ++ [[e.mem]]).getD i [] = [] := by
          apply List.getD_eq_default
          simp
          omega
        have e3 : (r.1.mem_active ++ [[e.mem - e.static_mem]]).getD i [] = [] := by
          apply List.getD_eq_default
          simp
          omega
        rw [e1, e2, e3]
        simp

/-- `add` never removes elements from an existing group. -/
lemma add_groups_ext (ov : List DeviceMesh → DeviceMesh → Bool)
    (st : GroupedRPCExecutions) (e : RPCExecution) (i : Nat) : ∃ t,
    (st.add ov e).rpc_exe_groups.getD i [] = st.rpc_exe_groups.getD i [] ++ t := by
  obtain ⟨t, ht⟩ := addLoop_groups_ext ov e st.rpc_exe_groups st.rpc_exe_group_models
      st.mem_static st.mem_active st.mem_costs i
  have L1 := (addLoop_length ov e st.rpc_exe_groups st.rpc_exe_group_models
      st.mem_static st.mem_active st.mem_costs).1
  by_cases hflag : (addLoop ov e st.rpc_exe_groups st.rpc_exe_group_models
      st.mem_static st.mem_active st.mem_costs).2 = true
  · refine ⟨t, ?_⟩
    simp only [GroupedRPCExecutions.add]
    rw [if_pos hflag]
    exact ht
  · rcases Nat.lt_trichotomy i st.rpc_exe_groups.length with hlt | heq | hgt
    · refine ⟨t, ?_⟩
      simp only [GroupedRPCExecutions.add]
      rw [if_neg hflag, List.getD_append _ _ _ _ (by omega)]
      exact ht
    · refine ⟨[e], ?_⟩
      simp only [GroupedRPCExecutions.add]
      rw [if_neg hflag, List.getD_append_right _ _ _ _ (by omega)]
      have hd : st.rpc_exe_groups.getD i [] = [] := List.getD_eq_default _ _ (by omega)
      simp [hd, L1, heq]
    · refine ⟨[], ?_⟩
      simp only [GroupedRPCExecutions.add]
      rw [if_neg hflag]
      have hd : st.rpc_exe_groups.getD i [] = [] := List.getD_eq_default _ _ (by omega)
      have hd2 : ((addLoop ov e st.rpc_exe_groups st.rpc_exe_group_models
          st.mem_static st.mem_active st.mem_costs).1.rpc_exe_groups ++ [[e]]).getD i [] = [] := by
        apply List.getD_eq_default
        simp
        omega
      rw [hd2, hd]
      rfl

/-- `add` creates at most one new group. -/
lemma add_groups_length (ov : List DeviceMesh → DeviceMesh → Bool)
    (st : GroupedRPCExecutions) (e : RPCExecution) :
    (st.add ov e).rpc_exe_groups.length = st.rpc_exe_groups.length ∨
    (st.add ov e).rpc_exe_groups.length = st.rpc_exe_groups.length + 1 := by
  have L1 := (addLoop_length ov e st.rpc_exe_groups st.rpc_exe_group_models
      st.mem_static st.mem_active st.mem_costs).1
  by_cases hflag : (addLoop ov e st.rpc_exe_groups st.rpc_exe_group_models
      st.mem_static st.mem_active st.mem_costs).2 = true
  · left
    simp only [GroupedRPCExecutions.add]
    rw [if_pos hflag]
    exact L1
  · right
    simp only [GroupedRPCExecutions.add]
    rw [if_neg hflag]
    simp [L1]

/-- Characterization of `add` on states whose parallel lists are aligned:
every overlapping group receives the execution, and a fresh singleton group
is appended exactly when no group overlaps. -/
lemma add_groups_char (ov : List DeviceMesh → DeviceMesh → Bool)
    (st : GroupedRPCExecutions) (e : RPCExecution)
    (h1 : st.rpc_exe_groups.length = st.rpc_exe_group_models.length)
    (h2 : st.rpc_exe_group_models.length = st.mem_static.length)
    (h3 : st.mem_static.length = st.mem_active.length)
    (h4 : st.mem_active.length = st.mem_costs.length) :
    (st.add ov e).rpc_exe_groups =
      st.rpc_exe_groups.map (fun g =>
        if ov (g.map (fun x => x.device_mesh)) e.device_mesh then g ++ [e] else g) ++
      (if st.rpc_exe_groups.any (fun g => ov (g.map (fun x => x.device_mesh)) e.device_mesh)
       then [] else [[e]]) := by
  obtain ⟨hg, hf⟩ := addLoop_char ov e st.rpc_exe_groups st.rpc_exe_group_models
      st.mem_static st.mem_active st.mem_costs h1 h2 h3 h4
  by_cases hflag : (addLoop ov e st.rpc_exe_groups st.rpc_exe_group_models
      st.mem_static st.mem_active st.mem_costs).2 = true
  · have hany : st.rpc_exe_groups.any
        (fun g => ov (g.map (fun x => x.device_mesh)) e.device_mesh) = true := hf ▸ hflag
    simp only [GroupedRPCExecutions.add]
    rw [if_pos hflag, hg, hany]
    simp
  · rw [Bool.not_eq_true] at hflag
    have hany : st.rpc_exe_groups.any
        (fun g => ov (g.map (fun x => x.device_mesh)) e.device_mesh) = false := hf ▸ hflag
    simp only [GroupedRPCExecutions.add]
    rw [if_neg (by simp [hflag]), hg, hany]
    simp

/-- C10: After every sequence of `add` calls the five parallel lists of
`GroupedRPCExecutions` have equal length and each group has a duplicate-free
model list aligned with its static/active lists; moreover each `add` call
grows the number of groups by at most one and never removes elements from,
or merges, existing groups. -/
theorem claim_C10_invariant (ov : List DeviceMesh → DeviceMesh → Bool)
    (es : List RPCExecution) :
    (runAdds ov es).Inv ∧
    (∀ (st : GroupedRPCExecutions) (e : RPCExecution),
      (st.add ov e).rpc_exe_groups.length = st.rpc_exe_groups.length ∨
      (st.add ov e).rpc_exe_groups.length = st.rpc_exe_groups.length + 1) ∧
    (∀ (st : GroupedRPCExecutions) (e : RPCExecution) (i : Nat), ∃ t,
      (st.add ov e).rpc_exe_groups.getD i [] = st.rpc_exe_groups.getD i [] ++ t) := by
  refine ⟨?_, fun st e => add_groups_length ov st e, fun st e i => add_groups_ext ov st e i⟩
  have h : ∀ st : GroupedRPCExecutions, st.Inv →
      (es.foldl (GroupedRPCExecutions.add ov) st).Inv := by
    induction es with
    | nil => exact fun st h => h
    | cons x xs ih => exact fun st h => ih _ (add_Inv ov st x h)
  exact h _ init_Inv

lemma meshOverlap_self (m : DeviceMesh) (h : m ≠ []) : meshOverlap m m = true := by
  cases m with
  | nil => exact absurd rfl h
  | cons d t => simp [meshOverlap]

/-- Concrete executions used in counterexamples/witnesses: `exeC`'s mesh
overlaps both `exeA`'s and `exeB`'s (which are disjoint). -/
def exeA : RPCExecution := ⟨⟨"actor", "generate", "rpcA"⟩, [0], ⟨1, 1, 1⟩, 0, 10, 4⟩

def exeB : RPCExecution := ⟨⟨"critic", "inference", "rpcB"⟩, [1], ⟨1, 1, 1⟩, 0, 20, 5⟩

def exeC : RPCExecution := ⟨⟨"reward", "inference", "rpcC"⟩, [0, 1], ⟨1, 1, 1⟩, 0, 30, 6⟩

/-- Two executions on the same mesh with the same model name but different
static memory, exposing which quantity `mem_static` actually tracks. -/
def exeD : RPCExecution := ⟨⟨"actor", "train_step", "rpcD"⟩, [0], ⟨1, 1, 1⟩, 0, 10, 4⟩

def exeE : RPCExecution := ⟨⟨"actor", "train_step", "rpcE"⟩, [0], ⟨1, 1, 1⟩, 0, 8, 7⟩

/-- C1 (counterexample): an execution whose mesh overlaps two existing groups
is appended to BOTH groups (the scan loop has no `break`), contradicting the
claim that it joins only the first overlapping group and "is not added to
... any later group". -/
theorem claim_C1_counterexample :
    is_all_overlap [exeA.device_mesh] exeC.device_mesh = true ∧
    is_all_overlap [exeB.device_mesh] exeC.device_mesh = true ∧
    (runAdds is_all_overlap [exeA, exeB]).rpc_exe_groups = [[exeA], [exeB]] ∧
    (runAdds is_all_overlap [exeA, exeB, exeC]).rpc_exe_groups =
      [[exeA, exeC], [exeB, exeC]] := by
  decide

/-- C1 (amended): on a state whose parallel lists are aligned, `add` appends
the execution to EVERY group whose member meshes overlap its mesh, and
appends a fresh singleton group exactly when no group overlaps. -/
theorem claim_C1_amended (ov : List DeviceMesh → DeviceMesh → Bool)
    (st : GroupedRPCExecutions) (e : RPCExecution)
    (h1 : st.rpc_exe_groups.length = st.rpc_exe_group_models.length)
    (h2 : st.rpc_exe_group_models.length = st.mem_static.length)
    (h3 : st.mem_static.length = st.mem_active.length)
    (h4 : st.mem_active.length = st.mem_costs.length) :
    (st.add ov e).rpc_exe_groups =
      st.rpc_exe_groups.map (fun g =>
        if ov (g.map (fun x => x.device_mesh)) e.device_mesh then g ++ [e] else g) ++
      (if st.rpc_exe_groups.any (fun g => ov (g.map (fun x => x.device_mesh)) e.device_mesh)
       then [] else [[e]]) :=
  add_groups_char ov st e h1 h2 h3 h4

/-- Witness for C1 (amended) at a concrete two-group state. -/
theorem claim_C1_amended_witness :
    ((runAdds is_all_overlap [exeA, exeB]).add is_all_overlap exeC).rpc_exe_groups =
      (runAdds is_all_overlap [exeA, exeB]).rpc_exe_groups.map (fun g =>
        if is_all_overlap (g.map (fun x => x.device_mesh)) exeC.device_mesh
        then g ++ [exeC] else g) ++
      (if (runAdds is_all_overlap [exeA, exeB]).rpc_exe_groups.any (fun g =>
            is_all_overlap (g.map (fun x => x.device_mesh)) exeC.device_mesh)
       then [] else [[exeC]]) :=
  claim_C1_amended is_all_overlap (runAdds is_all_overlap [exeA, exeB]) exeC
    (by decide) (by decide) (by decide) (by decide)

/-- C2: evaluation at the failing input.  `add` retains the per-model maximum
of total `mem` (not of `static_mem`) in `mem_static`: after adding
(mem 10, static 4) and (mem 8, static 7) for one model on one mesh the code
yields total cost 16, while the claimed "sum of per-model static maxima plus
max of per-model active maxima" is max(4,7) + max(6,1) = 13. -/
theorem claim_C2_code_bug_eval :
    (runAdds is_all_overlap [exeD, exeE]).total_mem_cost = 16 ∧
    (runAdds is_all_overlap [exeD, exeE]).mem_static = [[10]] ∧
    max exeD.static_mem exeE.static_mem +
      max (exeD.mem - exeD.static_mem) (exeE.mem - exeE.static_mem) = 13 ∧
    (16 : Int) ≠ 13 := by
  decide

lemma add_init (ov : List DeviceMesh → DeviceMesh → Bool) (x : RPCExecution) :
    GroupedRPCExecutions.init.add ov x =
      ⟨[[x]], [[x.rpc.model_name]], [[x.mem]], [[x.mem - x.static_mem]], [x.mem]⟩ := rfl

/-- C3: two `add` calls into a fresh state.  With disjoint meshes the state
holds two groups whose costs sum to `total_mem_cost()`; with the same
(nonempty) mesh and the same model name the second `add` updates the single
per-model entry in place and `total_mem_cost()` is that single entry's
static-plus-active cost, not its double. -/
theorem claim_C3_two_adds (x y : RPCExecution) :
    (meshOverlap x.device_mesh y.device_mesh = false →
      (runAdds is_all_overlap [x, y]).rpc_exe_groups.length = 2 ∧
      (runAdds is_all_overlap [x, y]).total_mem_cost =
        (runAdds is_all_overlap [x, y]).mem_costs.getD 0 0 +
        (runAdds is_all_overlap [x, y]).mem_costs.getD 1 0) ∧
    (x.device_mesh = y.device_mesh → x.device_mesh ≠ [] →
     x.rpc.model_name = y.rpc.model_name →
      (runAdds is_all_overlap [x, y]).rpc_exe_groups.length = 1 ∧
      (runAdds is_all_overlap [x, y]).rpc_exe_group_models = [[x.rpc.model_name]] ∧
      ((runAdds is_all_overlap [x, y]).mem_static.getD 0 []).length = 1 ∧
      (runAdds is_all_overlap [x, y]).total_mem_cost =
        ((runAdds is_all_overlap [x, y]).mem_static.getD 0 []).getD 0 0 +
        ((runAdds is_all_overlap [x, y]).mem_active.getD 0 []).getD 0 0) := by
  have hrun : runAdds is_all_overlap [x, y] =
      (GroupedRPCExecutions.init.add is_all_overlap x).add is_all_overlap y := rfl
  constructor
  · intro hdisj
    have htest : is_all_overlap [x.device_mesh] y.device_mesh = false := by
      simp only [is_all_overlap, List.any_cons, List.any_nil, Bool.or_false]
      exact hdisj
    have key : runAdds is_all_overlap [x, y] =
        ⟨[[x], [y]], [[x.rpc.model_name], [y.rpc.model_name]],
         [[x.mem], [y.mem]], [[x.mem - x.static_mem], [y.mem - y.static_mem]],
         [x.mem, y.mem]⟩ := by
      rw [hrun, add_init]
      simp [GroupedRPCExecutions.add, addLoop, htest]
    rw [key]
    refine ⟨rfl, ?_⟩
    simp [GroupedRPCExecutions.total_mem_cost]
  · intro hmesh hne hname
    have hov : meshOverlap x.device_mesh y.device_mesh = true := by
      rw [hmesh] at hne ⊢
      exact meshOverlap_self _ hne
    have htest : is_all_overlap [x.device_mesh] y.device_mesh = true := by
      simp only [is_all_overlap, List.any_cons, List.any_nil, Bool.or_false]
      exact hov
    have hcont : [x.rpc.model_name].contains y.rpc.model_name = true := by
      simp [hname]
    have hidx : List.findIdx (fun z => z == y.rpc.model_name) [y.rpc.model_name] = 0 := by
      simp [List.findIdx_cons]
    have key : runAdds is_all_overlap [x, y] =
        ⟨[[x, y]], [[x.rpc.model_name]], [[max x.mem y.mem]],
         [[max (x.mem - x.static_mem) (y.mem - y.static_mem)]],
         [max x.mem y.mem + max (x.mem - x.static_mem) (y.mem - y.static_mem)]⟩ := by
      rw [hrun, add_init]
      simp [GroupedRPCExecutions.add, addLoop, htest, hcont, hidx, pyMax, hname]
    rw [key]
    refine ⟨rfl, rfl, rfl, ?_⟩
    simp [GroupedRPCExecutions.total_mem_cost]

/-- Witness for C3: the disjoint part at `exeA`, `exeB`, the same-mesh
same-model part at `exeD`, `exeE`. -/
theorem claim_C3_witness :
    ((runAdds is_all_overlap [exeA, exeB]).rpc_exe_groups.length = 2 ∧
     (runAdds is_all_overlap [exeA, exeB]).total_mem_cost =
       (runAdds is_all_overlap [exeA, exeB]).mem_costs.getD 0 0 +
       (runAdds is_all_overlap [exeA, exeB]).mem_costs.getD 1 0) ∧
    ((runAdds is_all_overlap [exeD, exeE]).rpc_exe_groups.length = 1 ∧
     (runAdds is_all_overlap [exeD, exeE]).rpc_exe_group_models = [[exeD.rpc.model_name]] ∧
     ((runAdds is_all_overlap [exeD, exeE]).mem_static.getD 0 []).length = 1 ∧
     (runAdds is_all_overlap [exeD, exeE]).total_mem_cost =
       ((runAdds is_all_overlap [exeD, exeE]).mem_static.getD 0 []).getD 0 0 +
       ((runAdds is_all_overlap [exeD, exeE]).mem_active.getD 0 []).getD 0 0) :=
  ⟨(claim_C3_two_adds exeA exeB).1 (by decide),
   (claim_C3_two_adds exeD exeE).2 (by decide) (by decide) (by decide)⟩

/-! ### RPC execution enumeration (`reallm/profiler/enumerate.py`) -/

/-- `ModelInterfaceType` as a closed enumeration. -/
inductive ModelInterfaceType where
  | GENERATE
  | INFERENCE
  | TRAIN_STEP
deriving DecidableEq

/-- Python `str()` of the enum member (used by the `RPC` projection). -/
def ModelInterfaceType.str : ModelInterfaceType → String
  | .GENERATE => "ModelInterfaceType.GENERATE"
  | .INFERENCE => "ModelInterfaceType.INFERENCE"
  | .TRAIN_STEP => "ModelInterfaceType.TRAIN_STEP"

/-- The fields of a `ModelRPC` consumed by `enumerate_rpc_executions`;
`model_name_role` stands for `model_name.role`. -/
structure ModelRPC where
  name : String
  model_name_role : String
  interface_type : ModelInterfaceType
  min_n_seqs : Nat
  max_n_tokens : Nat

/-- The enclosing device mesh; the filters consult only `n_nodes`. -/
structure FullDeviceMesh where
  n_nodes : Nat

/-- `GPU_MEM_CAP = 80 * (1024**3)` (`reallm/profiler/enumerate.py` line 9). -/
def GPU_MEM_CAP : Int := 80 * 1024 ^ 3

/-- `RPC.from_config`: the lightweight projection emitted with each
execution (cf. `profiler/rpc.py`). -/
def RPC.from_config (r : ModelRPC) : RPC :=
  ⟨r.model_name_role, r.interface_type.str, r.name⟩

/-- `enumerate_rpc_executions` (`reallm/profiler/enumerate.py` lines 13-52).
`sub_device_meshes` stands for the result of
`find_sub_device_meshes(device_mesh)`, and `find_parallel_strategies`,
`estimate_rpc_memory` (args: strategy, bs, seq_len, n_ppo_minibatches,
gen_len, offload), `estimate_rpc_time` (args: strategy, bs, seq_len,
num_gen_tokens, n_ppo_minibatches) are the collaborator functions from the
missing `device_mesh.py` / `estimate.py`, taken as parameters.  With
`MEM_INDEX = 1.0` the code's `int(mem_cost * MEM_INDEX)` is the identity on
the integer estimator outputs. -/
def enumerate_rpc_executions (rpc : ModelRPC) (device_mesh : FullDeviceMesh)
    (num_gen_tokens n_ppo_minibatches : Nat)
    (sub_device_meshes : List DeviceMesh)
    (find_parallel_strategies : DeviceMesh → List ParallelStrategy)
    (estimate_rpc_memory : ParallelStrategy → Nat → Nat → Nat → Nat → Bool → Int × Int)
    (estimate_rpc_time : ParallelStrategy → Nat → Nat → Nat → Nat → Int) :
    List RPCExecution :=
  sub_device_meshes.flatMap (fun sub =>
    (find_parallel_strategies sub).filterMap (fun p =>
      let bs := rpc.min_n_seqs
      let seq_len := rpc.max_n_tokens / bs
      let min_bs :=
        if rpc.interface_type = ModelInterfaceType.TRAIN_STEP
        then 2 * p.num_dp * p.num_pp * n_ppo_minibatches
        else p.num_dp * p.num_pp
      if min_bs > bs then none
      else if p.num_mp * p.num_dp > 8 ∧ rpc.interface_type = ModelInterfaceType.TRAIN_STEP
      then none
      else if p.num_pp > max device_mesh.n_nodes 8 then none
      else
        let mc := estimate_rpc_memory p bs seq_len n_ppo_minibatches num_gen_tokens
            (rpc.model_name_role == "ref" || rpc.model_name_role == "reward")
        let time_cost := estimate_rpc_time p bs seq_len num_gen_tokens n_ppo_minibatches
        if mc.1 < GPU_MEM_CAP
        then some ⟨RPC.from_config rpc, sub, p, time_cost, mc.1, mc.2⟩
        else none))

/-- C4: every emitted execution has `mem` strictly below `GPU_MEM_CAP`. -/
theorem claim_C4_mem_cap (rpc : ModelRPC) (device_mesh : FullDeviceMesh)
    (num_gen_tokens n_ppo_minibatches : Nat)
    (sub_device_meshes : List DeviceMesh)
    (find_parallel_strategies : DeviceMesh → List ParallelStrategy)
    (estimate_rpc_memory : ParallelStrategy → Nat → Nat → Nat → Nat → Bool → Int × Int)
    (estimate_rpc_time : ParallelStrategy → Nat → Nat → Nat → Nat → Int)
    (e : RPCExecution)
    (he : e ∈ enumerate_rpc_executions rpc device_mesh num_gen_tokens n_ppo_minibatches
        sub_device_meshes find_parallel_strategies estimate_rpc_memory estimate_rpc_time) :
    e.mem < GPU_MEM_CAP := by
  simp only [enumerate_rpc_executions, List.mem_flatMap, List.mem_filterMap] at he
  obtain ⟨sub, hsub, p, hp, hsome⟩ := he
  split_ifs at hsome <;> try exact Option.noConfusion hsome
  all_goals cases hsome
  all_goals assumption

/-- C5: every emitted execution's strategy satisfies the legality filters:
TRAIN_STEP needs `batch_size >= 2*num_dp*num_pp*n_minibatches` and
`num_mp*num_dp <= 8`; GENERATE/INFERENCE need `batch_size >= num_dp*num_pp`;
and always `num_pp <= max(node_count, 8)`. -/
theorem claim_C5_legality (rpc : ModelRPC) (device_mesh : FullDeviceMesh)
    (num_gen_tokens n_ppo_minibatches : Nat)
    (sub_device_meshes : List DeviceMesh)
    (find_parallel_strategies : DeviceMesh → List ParallelStrategy)
    (estimate_rpc_memory : ParallelStrategy → Nat → Nat → Nat → Nat → Bool → Int × Int)
    (estimate_rpc_time : ParallelStrategy → Nat → Nat → Nat → Nat → Int)
    (e : RPCExecution)
    (he : e ∈ enumerate_rpc_executions rpc device_mesh num_gen_tokens n_ppo_minibatches
        sub_device_meshes find_parallel_strategies estimate_rpc_memory estimate_rpc_time) :
    (rpc.interface_type = ModelInterfaceType.TRAIN_STEP →
      2 * e.parallel_strategy.num_dp * e.parallel_strategy.num_pp * n_ppo_minibatches ≤
        rpc.min_n_seqs ∧
      e.parallel_strategy.num_mp * e.parallel_strategy.num_dp ≤ 8) ∧
    ((rpc.interface_type = ModelInterfaceType.GENERATE ∨
      rpc.interface_type = ModelInterfaceType.INFERENCE) →
      e.parallel_strategy.num_dp * e.parallel_strategy.num_pp ≤ rpc.min_n_seqs) ∧
    e.parallel_strategy.num_pp ≤ max device_mesh.n_nodes 8 := by
  simp only [enumerate_rpc_executions, List.mem_flatMap, List.mem_filterMap] at he
  obtain ⟨sub, hsub, p, hp, hsome⟩ := he
  split_ifs at hsome <;> try exact Option.noConfusion hsome
  -- two surviving goals: the TRAIN_STEP branch and the GENERATE/INFERENCE one
  all_goals cases hsome
  all_goals dsimp only
  all_goals rename_i h1 h2 h3 h4 h5
  · refine ⟨fun ht => ⟨by omega, ?_⟩, fun hg => ?_, by omega⟩
    · by_contra hmp
      exact h3 ⟨by omega, h1⟩
    · rcases hg with hg | hg <;> cases hg.symm.trans h1
  · refine ⟨fun ht => absurd ht h1, fun hg => by omega, by omega⟩

/-- C9: `enumerate_rpc_executions` is deterministic — replacing the cost
estimators by pointwise-equal functions yields the identical ordered list. -/
theorem claim_C9_deterministic (rpc : ModelRPC) (device_mesh : FullDeviceMesh)
    (num_gen_tokens n_ppo_minibatches : Nat)
    (sub_device_meshes : List DeviceMesh)
    (find_parallel_strategies : DeviceMesh → List ParallelStrategy)
    (em em' : ParallelStrategy → Nat → Nat → Nat → Nat → Bool → Int × Int)
    (et et' : ParallelStrategy → Nat → Nat → Nat → Nat → Int)
    (hmem : ∀ p b s n g o, em p b s n g o = em' p b s n g o)
    (htime : ∀ p b s g n, et p b s g n = et' p b s g n) :
    enumerate_rpc_executions rpc device_mesh num_gen_tokens n_ppo_minibatches
      sub_device_meshes find_parallel_strategies em et =
    enumerate_rpc_executions rpc device_mesh num_gen_tokens n_ppo_minibatches
      sub_device_meshes find_parallel_strategies em' et' := by
  unfold enumerate_rpc_executions
  simp only [hmem, htime]

/-- Concrete inputs for the enumeration witnesses. -/
def rpcW : ModelRPC := ⟨"actor_train", "actor", ModelInterfaceType.TRAIN_STEP, 16, 8192⟩

def meshW : FullDeviceMesh := ⟨1⟩

def subsW : List DeviceMesh := [[0]]

def psW : DeviceMesh → List ParallelStrategy := fun _ => [⟨2, 1, 1⟩]

def emW : ParallelStrategy → Nat → Nat → Nat → Nat → Bool → Int × Int :=
  fun _ _ _ _ _ _ => (1000, 400)

def etW : ParallelStrategy → Nat → Nat → Nat → Nat → Int := fun _ _ _ _ _ => 7

/-- The single candidate produced from `rpcW` on `subsW`. -/
def exeW : RPCExecution := ⟨RPC.from_config rpcW, [0], ⟨2, 1, 1⟩, 7, 1000, 400⟩

/-- Witness for C4 at a concrete enumeration. -/
theorem claim_C4_witness : exeW.mem < GPU_MEM_CAP :=
  claim_C4_mem_cap rpcW meshW 128 2 subsW psW emW etW exeW (by decide)

/-- Witness for C5 at a concrete enumeration. -/
theorem claim_C5_witness :
    (rpcW.interface_type = ModelInterfaceType.TRAIN_STEP →
      2 * exeW.parallel_strategy.num_dp * exeW.parallel_strategy.num_pp * 2 ≤
        rpcW.min_n_seqs ∧
      exeW.parallel_strategy.num_mp * exeW.parallel_strategy.num_dp ≤ 8) ∧
    ((rpcW.interface_type = ModelInterfaceType.GENERATE ∨
      rpcW.interface_type = ModelInterfaceType.INFERENCE) →
      exeW.parallel_strategy.num_dp * exeW.parallel_strategy.num_pp ≤ rpcW.min_n_seqs) ∧
    exeW.parallel_strategy.num_pp ≤ max meshW.n_nodes 8 :=
  claim_C5_legality rpcW meshW 128 2 subsW psW emW etW exeW (by decide)

/-- A pointwise-equal but syntactically different estimator pair. -/
def emW2 : ParallelStrategy → Nat → Nat → Nat → Nat → Bool → Int × Int :=
  fun _ _ _ _ _ _ => (500 + 500, 400)

def etW2 : ParallelStrategy → Nat → Nat → Nat → Nat → Int := fun _ _ _ _ _ => 3 + 4

/-- Witness for C9 at a concrete enumeration. -/
theorem claim_C9_witness :
    enumerate_rpc_executions rpcW meshW 128 2 subsW psW emW etW =
    enumerate_rpc_executions rpcW meshW 128 2 subsW psW emW2 etW2 :=
  claim_C9_deterministic rpcW meshW 128 2 subsW psW emW emW2 etW etW2
    (fun _ _ _ _ _ _ => rfl) (fun _ _ _ _ _ => rfl)

/-! ### Multi-epoch dependency graph (`build_graph`) -/

instance : Inhabited RPC := ⟨⟨"", "", ""⟩⟩

/-- One RPC node of the one-epoch dependency graph, as produced by the
(missing) `api.dfg.build_graph`: identity fields, source/sink flags and
intra-epoch parent/child edge names. -/
structure DfgRPC where
  name : String
  model_name : String
  interface_type : String
  is_src : Bool
  is_dst : Bool
  parents : List String
  children : List String

instance : Inhabited DfgRPC := ⟨⟨"", "", "", false, false, [], []⟩⟩

/-- The `RPC(...)` projection applied to a graph node. -/
def RPC.fromDfg (r : DfgRPC) : RPC := ⟨r.model_name, r.interface_type, r.name⟩

/-- `RPCInstance` from `profiler/rpc.py`: one (rpc, epoch) node with parent
and child instances; its `name` is `f"{rpc_name}:{epoch_id}"`. -/
inductive RPCInstance where
  | mk (rpc : RPC) (epoch_id : Nat) (parents : List RPCInstance)
      (children : List RPCInstance)

instance : Inhabited RPCInstance := ⟨⟨default, 0, [], []⟩⟩

def RPCInstance.rpc : RPCInstance → RPC
  | .mk r _ _ _ => r

def RPCInstance.epoch_id : RPCInstance → Nat
  | .mk _ e _ _ => e

def RPCInstance.parents : RPCInstance → List RPCInstance
  | .mk _ _ p _ => p

def RPCInstance.children : RPCInstance → List RPCInstance
  | .mk _ _ _ c => c

/-- `self.name = f"{self.rpc.rpc_name}:{self.epoch_id}"`. -/
def RPCInstance.name (i : RPCInstance) : String :=
  i.rpc.rpc_name ++ ":" ++ toString i.epoch_id

/-- Python's `{rpc.name: rpc for rpc in rpcs}[n]` (later entries win). -/
def lookupRpc (rpcs : List DfgRPC) (n : String) : DfgRPC :=
  (rpcs.reverse.find? (fun r => r.name == n)).getD default

/-- The body of the multi-epoch loop of `build_graph` for one (epoch, rpc)
pair (`reallm/profiler/enumerate.py` lines 72-91): synthetic cross-epoch
parents/children first, then the intra-epoch edges. -/
def buildInstance (rpcs : List DfgRPC) (num_epoch epoch_dependency_interval : Nat)
    (epoch_id : Nat) (rpc : DfgRPC) : RPCInstance :=
  let parents :=
    (if rpc.is_src ∧ epoch_id ≥ epoch_dependency_interval then
      (rpcs.filter (fun o => o.is_dst)).map (fun other =>
        RPCInstance.mk (RPC.fromDfg other) (epoch_id - epoch_dependency_interval) [] [])
    else []) ++
    rpc.parents.map (fun pn =>
      RPCInstance.mk (RPC.fromDfg (lookupRpc rpcs pn)) epoch_id [] [])
  let children :=
    (if rpc.is_dst then
      (rpcs.filter (fun o =>
          o.is_src && decide (epoch_id + epoch_dependency_interval < num_epoch))).map
        (fun other =>
          RPCInstance.mk (RPC.fromDfg other) (epoch_id + epoch_dependency_interval) [] [])
    else []) ++
    rpc.children.map (fun cn =>
      RPCInstance.mk (RPC.fromDfg (lookupRpc rpcs cn)) epoch_id [] [])
  RPCInstance.mk (RPC.fromDfg rpc) epoch_id parents children

/-- `build_graph` (`reallm/profiler/enumerate.py` lines 55-96): the
multi-epoch expansion of the one-epoch graph, epoch-major. -/
def build_graph (rpcs : List DfgRPC) (num_epoch epoch_dependency_interval : Nat) :
    List RPCInstance :=
  (List.range num_epoch).flatMap (fun epoch_id =>
    rpcs.map (buildInstance rpcs num_epoch epoch_dependency_interval epoch_id))

lemma flatMap_range_length {α : Type} (f : Nat → List α) (m : Nat)
    (hf : ∀ e, (f e).length = m) (n : Nat) :
    ((List.range n).flatMap f).length = n * m := by
  induction n with
  | zero => simp
  | succ n ih =>
      rw [List.range_succ, List.flatMap_append]
      simp [ih, hf, Nat.succ_mul]

lemma flatMap_range_getD {α : Type} (f : Nat → List α) (m : Nat)
    (hf : ∀ e, (f e).length = m) (n e i : Nat) (he : e < n) (hi : i < m) (d : α) :
    ((List.range n).flatMap f).getD (e * m + i) d = (f e).getD i d := by
  induction n with
  | zero => omega
  | succ n ih =>
      rw [List.range_succ, List.flatMap_append]
      rcases Nat.lt_or_ge e n with h | h
      · rw [List.getD_append _ _ _ _ ?_]
        · exact ih h
        · rw [flatMap_range_length f m hf n]
          have h1 : e * m + i < (e + 1) * m := by
            rw [Nat.succ_mul]
            omega
          have h2 : (e + 1) * m ≤ n * m := Nat.mul_le_mul_right m (by omega)
          omega
      · have hen : e = n := by omega
        subst hen
        rw [List.getD_append_right _ _ _ _ ?_]
        · rw [flatMap_range_length f m hf e]
          simp
        · rw [flatMap_range_length f m hf e]
          omega

/-- The single-RPC self-loop graph node of the spec's concrete scenario
(source = sink, no intra-epoch edges). -/
def rpcSelf : DfgRPC := ⟨"rpc", "actor", "generate", true, true, [], []⟩

/-- C7: `build_graph` emits one instance per (rpc, epoch) pair, epoch-major,
named `"{rpc_name}:{epoch_id}"`; a source RPC at epoch `e >= k` gets a parent
instance for every sink at epoch `e - k`, a sink RPC gets a child instance
for every source at epoch `e + k` when `e + k < num_epoch`, and intra-epoch
edges are copied per epoch; in particular the 3-epoch single-RPC self-loop
example produces `rpc:0`, `rpc:1`, `rpc:2` with `rpc:1` parented by `rpc:0`
and childed by `rpc:2`. -/
theorem claim_C7_build_graph :
    (∀ (rpcs : List DfgRPC) (n k : Nat),
      (build_graph rpcs n k).length = n * rpcs.length) ∧
    (∀ (rpcs : List DfgRPC) (n k e i : Nat), e < n → i < rpcs.length →
      ((build_graph rpcs n k).getD (e * rpcs.length + i) default).name =
        (rpcs.getD i default).name ++ ":" ++ toString e ∧
      ((build_graph rpcs n k).getD (e * rpcs.length + i) default).parents.map
          RPCInstance.name =
        (if (rpcs.getD i default).is_src ∧ e ≥ k then
          (rpcs.filter (fun o => o.is_dst)).map (fun o => o.name ++ ":" ++ toString (e - k))
        else []) ++
        (rpcs.getD i default).parents.map (fun pn =>
          (lookupRpc rpcs pn).name ++ ":" ++ toString e) ∧
      ((build_graph rpcs n k).getD (e * rpcs.length + i) default).children.map
          RPCInstance.name =
        (if (rpcs.getD i default).is_dst then
          (rpcs.filter (fun o => o.is_src && decide (e + k < n))).map (fun o =>
            o.name ++ ":" ++ toString (e + k))
        else []) ++
        (rpcs.getD i default).children.map (fun cn =>
          (lookupRpc rpcs cn).name ++ ":" ++ toString e)) ∧
    ((build_graph [rpcSelf] 3 1).map RPCInstance.name = ["rpc:0", "rpc:1", "rpc:2"] ∧
     ((build_graph [rpcSelf] 3 1).getD 1 default).parents.map RPCInstance.name = ["rpc:0"] ∧
     ((build_graph [rpcSelf] 3 1).getD 1 default).children.map RPCInstance.name = ["rpc:2"]) := by
  refine ⟨?_, ?_, ?_⟩
  · intro rpcs n k
    rw [build_graph]
    exact flatMap_range_length _ rpcs.length (fun e => by simp) n
  · intro rpcs n k e i he hi
    rw [build_graph, flatMap_range_getD _ rpcs.length (fun e => by simp) n e i he hi]
    have hg : (rpcs.map (buildInstance rpcs n k e)).getD i default =
        buildInstance rpcs n k e (rpcs.getD i default) := by
      rw [List.getD_eq_getElem _ _ (by simpa using hi), List.getElem_map,
        List.getD_eq_getElem _ _ hi]
    rw [hg]
    refine ⟨rfl, ?_, ?_⟩
    · simp only [buildInstance, RPCInstance.parents, List.map_append, List.map_map,
        apply_ite (List.map RPCInstance.name), List.map_nil]
      rfl
    · simp only [buildInstance, RPCInstance.children, List.map_append, List.map_map,
        apply_ite (List.map RPCInstance.name), List.map_nil]
      rfl
  · refine ⟨?_, ?_, ?_⟩ <;> rfl

/-- Witness for C7 at the concrete 3-epoch single-RPC instance. -/
theorem claim_C7_witness :
    ((build_graph [rpcSelf] 3 1).getD (1 * 1 + 0) default).name =
      ([rpcSelf].getD 0 default).name ++ ":" ++ toString 1 :=
  (claim_C7_build_graph.2.1 [rpcSelf] 3 1 1 0 (by decide) (by decide)).1

/-! ### Priority ordering of RPCs in the search
(`profiler/enumerate.py` lines 73-101) -/

/-- Average of the 10 smallest time costs: the code sorts `feasible`
ascending by `time_cost` and computes `sum(times[:10]) / 10` (Python true
division, modelled exactly in `ℚ`; the stable ascending sort is modelled by
`insertionSort`). -/
def top10Avg (times : List Int) : ℚ :=
  (((times.insertionSort (fun a b => a ≤ b)).take 10).sum : ℚ) / 10

/-- The sort key recorded for the `i`-th RPC (line 96):
`sum([x.time_cost for x in feasible][:10]) / 10 + i` — note the `+ i`. -/
def avgTimeCostKey (i : Nat) (times : List Int) : ℚ :=
  top10Avg times + i

/-- The `avg_time_cost` list of (key, rpc-name) pairs, one per RPC in input
order. -/
def avg_time_cost (tbl : List (String × List Int)) : List (ℚ × String) :=
  tbl.enum.map (fun p => (avgTimeCostKey p.1 p.2.2, p.2.1))

/-- `avg_time_cost.sort(key=lambda x: x[0], reverse=True)` (line 100):
Python's stable sort, descending in the key, modelled by the stable
`insertionSort` with the reversed comparison. -/
def sortedAvgTimeCost (tbl : List (String × List Int)) : List (ℚ × String) :=
  (avg_time_cost tbl).insertionSort (fun a b => b.1 ≤ a.1)

/-- `sorted_model_rpc_names = [x[1] for x in avg_time_cost]` (line 101). -/
def sorted_model_rpc_names (tbl : List (String × List Int)) : List String :=
  (sortedAvgTimeCost tbl).map (fun p => p.2)

/-- C8 (counterexample): the key is `top-10 average + RPC index`, not the
average alone: `rpc0` has the strictly higher average (5 vs 4.5) yet is
placed after `rpc1`, whose key 4.5 + 1 = 5.5 wins. -/
theorem claim_C8_counterexample :
    top10Avg [50] > top10Avg [45] ∧
    sorted_model_rpc_names [("rpc0", [50]), ("rpc1", [45])] = ["rpc1", "rpc0"] := by
  have e50 : top10Avg [50] = 5 := by
    norm_num [top10Avg, List.insertionSort, List.orderedInsert]
  have e45 : top10Avg [45] = 9 / 2 := by
    norm_num [top10Avg, List.insertionSort, List.orderedInsert]
  constructor
  · rw [e50, e45]
    norm_num
  · have hk : avg_time_cost [("rpc0", [50]), ("rpc1", [45])] =
        [(5, "rpc0"), (11 / 2, "rpc1")] := by
      simp [avg_time_cost, List.enum, List.enumFrom, avgTimeCostKey, e50, e45]
      norm_num
    rw [sorted_model_rpc_names, sortedAvgTimeCost, hk]
    norm_num [List.insertionSort, List.orderedInsert]

/-- C8 (amended): the evaluation order is sorted in descending order of
`top-10 average + index` (a permutation of the keyed input; names are read
off the sorted pair list). -/
theorem claim_C8_amended (tbl : List (String × List Int)) :
    (sortedAvgTimeCost tbl).Pairwise (fun a b => b.1 ≤ a.1) ∧
    (sortedAvgTimeCost tbl).Perm (avg_time_cost tbl) ∧
    sorted_model_rpc_names tbl = (sortedAvgTimeCost tbl).map (fun p => p.2) := by
  refine ⟨?_, List.perm_insertionSort _ _, rfl⟩
  haveI : IsTotal (ℚ × String) (fun a b => b.1 ≤ a.1) := ⟨fun a b => le_total b.1 a.1⟩
  haveI : IsTrans (ℚ × String) (fun a b => b.1 ≤ a.1) :=
    ⟨fun a b c hab hbc => le_trans hbc hab⟩
  exact List.sorted_insertionSort _ _

/-! ### The backtracking search loop
(`profiler/enumerate.py` `enumerate_model_device_mappings`, lines 110-158) -/

/-- The inner `for i in range(len(exp.model_rpcs))` loop (lines 115-132):
adds each currently-indexed candidate in order, incrementing `inner_count`
once per iteration, and breaks at the first position where the accumulated
grouped memory exceeds the cap.  `exceeds` stands for the Python float
comparison `current_mem > GPU_MEM_CAP * 1.2`.  Returns the number of inner
iterations performed and the break position `bi` (`none` if no break). -/
def evalAssign (ov : List DeviceMesh → DeviceMesh → Bool) (exceeds : Int → Bool) :
    List (List RPCExecution) → List Nat → GroupedRPCExecutions → Nat →
    Nat × Option Nat
  | [], _, _, _ => (0, none)
  | t :: ts, idxs, st, pos =>
      let exe := t.getD (idxs.headD 0) default
      let st' := st.add ov exe
      if exceeds st'.total_mem_cost then (1, some pos)
      else
        let r := evalAssign ov exceeds ts idxs.tail st' (pos + 1)
        (r.1 + 1, r.2)

/-- The `while bi >= 0` cursor-advance loop (lines 141-151): find the
rightmost position at or before `b` whose cursor can be incremented;
increment it there, else report that the carry fell off the left end. -/
def advanceAt (tables : List (List RPCExecution)) (index : List Nat) :
    Nat → List Nat × Int × Bool
  | 0 =>
      if index.getD 0 0 + 1 < (tables.getD 0 []).length then
        (index.set 0 (index.getD 0 0 + 1), (0 : Int), false)
      else (index, -1, true)
  | b + 1 =>
      if index.getD (b + 1) 0 + 1 < (tables.getD (b + 1) []).length then
        (index.set (b + 1) (index.getD (b + 1) 0 + 1), ((b + 1 : Nat) : Int), false)
      else advanceAt tables index b

/-- `for j in range(bi + 1, len(exp.model_rpcs)): index[j] = 0`
(lines 152-153). -/
def zeroAfter (index : List Nat) (b : Int) : List Nat :=
  index.enum.map (fun p => if b < (p.1 : Int) then 0 else p.2)

/-- The full odometer advance from break position `bi` (lines 140-153). -/
def odometerAdvance (tables : List (List RPCExecution)) (index : List Nat)
    (bi : Int) : List Nat × Int × Bool :=
  if 0 ≤ bi then
    let r := advanceAt tables index bi.toNat
    (zeroAfter r.1 r.2.1, r.2.1, r.2.2)
  else (zeroAfter index bi, bi, true)

/-- The mutable state of the outer `while True` loop. -/
structure SearchState where
  index : List Nat
  count : Nat
  inner_count : Nat
  valid_count : Nat

/-- One iteration of the outer `while True` loop (lines 110-158): evaluate
the current assignment, bump the counters, advance the cursors from the
break position (`len - 1` when the assignment was feasible), and stop when
the carry fell off the left end or `inner_count >= 200000`.  Returns the new
state, the `outer_loop_break_flag`, and the stop decision. -/
def searchStep (ov : List DeviceMesh → DeviceMesh → Bool) (exceeds : Int → Bool)
    (tables : List (List RPCExecution)) (st : SearchState) :
    SearchState × Bool × Bool :=
  let ev := evalAssign ov exceeds tables st.index GroupedRPCExecutions.init 0
  let bi : Int :=
    match ev.2 with
    | some i => (i : Int)
    | none => (tables.length : Int) - 1
  let valid' := if ev.2.isNone then st.valid_count + 1 else st.valid_count
  let adv := odometerAdvance tables st.index bi
  let inner' := st.inner_count + ev.1
  (⟨adv.1, st.count + 1, inner', valid'⟩, adv.2.2,
    adv.2.2 || decide (inner' ≥ 200000))

/-- The outer `while True` loop with fuel (`none` = fuel ran out).  On normal
termination returns the final state and the `outer_loop_break_flag`. -/
def searchLoop (ov : List DeviceMesh → DeviceMesh → Bool) (exceeds : Int → Bool)
    (tables : List (List RPCExecution)) : Nat → SearchState →
    Option (SearchState × Bool)
  | 0, _ => none
  | fuel + 1, st =>
      let r := searchStep ov exceeds tables st
      if r.2.2 then some (r.1, r.2.1) else searchLoop ov exceeds tables fuel r.1

/-- `index = [0 for _ in range(len(exp.model_rpcs))]` and zeroed counters. -/
def initSearchState (n : Nat) : SearchState := ⟨List.replicate n 0, 0, 0, 0⟩

lemma evalAssign_pos (ov : List DeviceMesh → DeviceMesh → Bool)
    (exceeds : Int → Bool) (t : List RPCExecution) (ts : List (List RPCExecution))
    (idxs : List Nat) (st : GroupedRPCExecutions) (pos : Nat) :
    1 ≤ (evalAssign ov exceeds (t :: ts) idxs st pos).1 := by
  rw [evalAssign]
  split
  · exact Nat.le_refl 1
  · simp

lemma searchStep_inner_eq (ov : List DeviceMesh → DeviceMesh → Bool)
    (exceeds : Int → Bool) (tables : List (List RPCExecution)) (st : SearchState) :
    (searchStep ov exceeds tables st).1.inner_count =
      st.inner_count + (evalAssign ov exceeds tables st.index
        GroupedRPCExecutions.init 0).1 := rfl

lemma searchStep_nil_stops (ov : List DeviceMesh → DeviceMesh → Bool)
    (exceeds : Int → Bool) (st : SearchState) :
    (searchStep ov exceeds [] st).2.2 = true := rfl

lemma searchLoop_isSome (ov : List DeviceMesh → DeviceMesh → Bool)
    (exceeds : Int → Bool) (tables : List (List RPCExecution)) :
    ∀ (fuel : Nat) (st : SearchState), 200000 - st.inner_count < fuel →
      (searchLoop ov exceeds tables fuel st).isSome = true := by
  intro fuel
  induction fuel with
  | zero => intro st h; omega
  | succ fuel ih =>
      intro st h
      rw [searchLoop]
      by_cases hstop : (searchStep ov exceeds tables st).2.2 = true
      · rw [if_pos hstop]
        rfl
      · rw [if_neg hstop]
        apply ih
        -- the stop test failed, so the budget test failed too
        have hor : ((searchStep ov exceeds tables st).2.2 = true) ↔
            ((odometerAdvance tables st.index (match (evalAssign ov exceeds tables
              st.index GroupedRPCExecutions.init 0).2 with
              | some i => (i : Int)
              | none => (tables.length : Int) - 1)).2.2 = true ∨
             200000 ≤ st.inner_count + (evalAssign ov exceeds tables st.index
               GroupedRPCExecutions.init 0).1) := by
          simp [searchStep]
        rw [searchStep_inner_eq]
        cases tables with
        | nil => exact absurd (searchStep_nil_stops ov exceeds st) hstop
        | cons t ts =>
            have h1 : ¬(200000 ≤ st.inner_count + (evalAssign ov exceeds (t :: ts)
                st.index GroupedRPCExecutions.init 0).1) := fun hc =>
              hstop (hor.mpr (Or.inr hc))
            have h2 := evalAssign_pos ov exceeds t ts st.index
              GroupedRPCExecutions.init 0
            omega

lemma searchLoop_stop_reason (ov : List DeviceMesh → DeviceMesh → Bool)
    (exceeds : Int → Bool) (tables : List (List RPCExecution)) :
    ∀ (fuel : Nat) (st : SearchState) (fin : SearchState) (fl : Bool),
      searchLoop ov exceeds tables fuel st = some (fin, fl) →
      fl = true ∨ 200000 ≤ fin.inner_count := by
  intro fuel
  induction fuel with
  | zero => intro st fin fl h; exact absurd h (by simp [searchLoop])
  | succ fuel ih =>
      intro st fin fl h
      rw [searchLoop] at h
      by_cases hstop : (searchStep ov exceeds tables st).2.2 = true
      · rw [if_pos hstop] at h
        cases h
        rcases Bool.or_eq_true_iff.mp hstop with h1 | h1
        · exact Or.inl h1
        · exact Or.inr (by simpa using of_decide_eq_true h1)
      · rw [if_neg hstop] at h
        exact ih _ _ _ h

/-- C6: the backtracking loop of `enumerate_model_device_mappings` (with the
odometer advance embedded in `searchStep`) terminates within the 200000
inner-iteration budget: run with fuel 200001 it stops normally, and it stops
either because the carry propagated past the first RPC
(`outer_loop_break_flag`) or because `inner_count` reached 200000. -/
theorem claim_C6_termination (ov : List DeviceMesh → DeviceMesh → Bool)
    (exceeds : Int → Bool) (tables : List (List RPCExecution))
    (hne : ∀ t ∈ tables, t ≠ []) :
    ∃ p : SearchState × Bool,
      searchLoop ov exceeds tables 200001 (initSearchState tables.length) = some p ∧
      (p.2 = true ∨ 200000 ≤ p.1.inner_count) := by
  have hs := searchLoop_isSome ov exceeds tables 200001
    (initSearchState tables.length) (by simp [initSearchState])
  obtain ⟨p, hp⟩ := Option.isSome_iff_exists.mp hs
  exact ⟨p, hp, searchLoop_stop_reason ov exceeds tables 200001 _ p.1 p.2 hp⟩

/-- Witness for C6 on a one-RPC, one-candidate table. -/
theorem claim_C6_witness :
    ∃ p : SearchState × Bool,
      searchLoop is_all_overlap (fun _ => false) [[exeA]] 200001
        (initSearchState 1) = some p ∧
      (p.2 = true ∨ 200000 ≤ p.1.inner_count) :=
  claim_C6_termination is_all_overlap (fun _ => false) [[exeA]] (by decide)

end ReaLHF
